import Mathlib

/-!
Shallow embedding of the houserat presence daemon (src/*.rs).

Machine bytes are modelled as `Nat` with explicit arithmetic where the code
reads multi-byte big-endian fields.  Fallible packet constructors return
`Option`, mirroring pnet's `Packet::new` which returns `None` on a buffer
shorter than the minimum packet size.  `parse_packet` returns `Option Event`:
`none` models the panic of the `.unwrap()` on `EthernetPacket::new`.
-/

/-- A 6-byte hardware address (pnet `MacAddr`). -/
structure MacAddr where
  b0 : Nat
  b1 : Nat
  b2 : Nat
  b3 : Nat
  b4 : Nat
  b5 : Nat
deriving DecidableEq

/-- A 4-byte IPv4 address (`std::net::Ipv4Addr`). -/
structure Ipv4Addr where
  o0 : Nat
  o1 : Nat
  o2 : Nat
  o3 : Nat
deriving DecidableEq

/-- `network::Event`. -/
inductive Event where
  | Ignored : Event
  | Connected (mac : MacAddr) : Event
  | Alive (mac : MacAddr) (ip : Ipv4Addr) : Event
deriving DecidableEq

/-- The accessor results of pnet's `EthernetPacket` over a raw frame. -/
structure EthernetPacket where
  dst : MacAddr
  src : MacAddr
  ethertype : Nat
  payload : List Nat

/-- pnet `EthernetPacket::new`: `none` iff the buffer is shorter than the
14-byte minimum; ethertype is big-endian bytes 12..14, source bytes 6..12,
payload everything after byte 14. -/
def EthernetPacket.new (data : List Nat) : Option EthernetPacket :=
  match data with
  | d0 :: d1 :: d2 :: d3 :: d4 :: d5 :: s0 :: s1 :: s2 :: s3 :: s4 :: s5 ::
      e0 :: e1 :: rest =>
    some ⟨⟨d0, d1, d2, d3, d4, d5⟩, ⟨s0, s1, s2, s3, s4, s5⟩, e0 * 256 + e1, rest⟩
  | _ => none

/-- The accessor results of pnet's `ArpPacket` (28-byte fixed header). -/
structure ArpPacket where
  operation : Nat
  sender_hw_addr : MacAddr
  sender_proto_addr : Ipv4Addr
  target_hw_addr : MacAddr
  target_proto_addr : Ipv4Addr

/-- pnet `ArpPacket::new`: `none` iff the buffer is shorter than the fixed
28-byte ARP header; operation is big-endian bytes 6..8, sender hardware
address bytes 8..14, sender protocol address bytes 14..18, target hardware
address bytes 18..24, target protocol address bytes 24..28. -/
def ArpPacket.new (data : List Nat) : Option ArpPacket :=
  match data with
  | _h0 :: _h1 :: _p0 :: _p1 :: _hl :: _pl :: o0 :: o1 ::
      sh0 :: sh1 :: sh2 :: sh3 :: sh4 :: sh5 :: sp0 :: sp1 :: sp2 :: sp3 ::
      th0 :: th1 :: th2 :: th3 :: th4 :: th5 :: tp0 :: tp1 :: tp2 :: tp3 :: _rest =>
    some ⟨o0 * 256 + o1, ⟨sh0, sh1, sh2, sh3, sh4, sh5⟩, ⟨sp0, sp1, sp2, sp3⟩,
      ⟨th0, th1, th2, th3, th4, th5⟩, ⟨tp0, tp1, tp2, tp3⟩⟩
  | _ => none

/-- The accessor results of pnet's `Ipv4Packet`. -/
structure Ipv4Packet where
  header_length : Nat
  total_length : Nat
  next_level_protocol : Nat
  payload : List Nat

/-- pnet `Ipv4Packet::new`: `none` iff the buffer is shorter than the 20-byte
minimum; header length is the low nibble of byte 0, total length big-endian
bytes 2..4, protocol byte 9.  The payload slice starts after the options
(options length saturates at 0 for a header length below 5) and ends at
`total_length` bytes from the start of the header, clamped to the buffer;
when `total_length` underflows the header size the end clamps to the whole
buffer (release-mode wrapping subtraction followed by `min` with the length). -/
def Ipv4Packet.new (data : List Nat) : Option Ipv4Packet :=
  match data with
  | b0 :: _b1 :: b2 :: b3 :: _b4 :: _b5 :: _b6 :: _b7 :: _b8 :: b9 ::
      _b10 :: _b11 :: _b12 :: _b13 :: _b14 :: _b15 :: _b16 :: _b17 :: _b18 :: _b19 ::
      rest =>
    let ihl := b0 % 16
    let optLen := ihl * 4 - 20
    let totalLen := b2 * 256 + b3
    let payload :=
      if ihl * 4 ≤ totalLen then (rest.drop optLen).take (totalLen - ihl * 4)
      else rest.drop optLen
    some ⟨ihl, totalLen, b9, payload⟩
  | _ => none

/-- The accessor results of pnet's `UdpPacket` (8-byte minimum). -/
structure UdpPacket where
  source : Nat
  destination : Nat

/-- pnet `UdpPacket::new`: `none` iff the buffer is shorter than 8 bytes;
source port big-endian bytes 0..2, destination port bytes 2..4. -/
def UdpPacket.new (data : List Nat) : Option UdpPacket :=
  match data with
  | s0 :: s1 :: d0 :: d1 :: _l0 :: _l1 :: _c0 :: _c1 :: _rest =>
    some ⟨s0 * 256 + s1, d0 * 256 + d1⟩
  | _ => none

/-- `network::parse_ipv4_packet`: UDP with source port 68 and destination
port 67 is `Connected(source mac)`; anything else is `Ignored`, a failed
inner parse included (the `try_event!` macro). `IpNextHeaderProtocols::Udp = 17`. -/
def parse_ipv4_packet (ethernet : EthernetPacket) : Event :=
  match Ipv4Packet.new ethernet.payload with
  | none => Event.Ignored
  | some header =>
    if header.next_level_protocol = 17 then
      match UdpPacket.new header.payload with
      | none => Event.Ignored
      | some udp =>
        if udp.source = 68 ∧ udp.destination = 67 then Event.Connected ethernet.src
        else Event.Ignored
    else Event.Ignored

/-- `network::parse_arp_packet`: a Request (operation 1) whose sender and
target protocol addresses coincide, or a Reply (operation 2), is
`Alive(sender hw, sender proto)`; anything else `Ignored`. -/
def parse_arp_packet (ethernet : EthernetPacket) : Event :=
  match ArpPacket.new ethernet.payload with
  | none => Event.Ignored
  | some header =>
    if (header.operation = 1 ∧ header.sender_proto_addr = header.target_proto_addr)
        ∨ header.operation = 2 then
      Event.Alive header.sender_hw_addr header.sender_proto_addr
    else Event.Ignored

/-- `network::parse_packet`.  The source unwraps `EthernetPacket::new`, so a
buffer without a complete Ethernet header panics: modelled as `none`.
`EtherTypes::Ipv4 = 0x0800 = 2048`, `EtherTypes::Arp = 0x0806 = 2054`. -/
def parse_packet (data : List Nat) : Option Event :=
  match EthernetPacket.new data with
  | none => none
  | some ethernet =>
    some (if ethernet.ethertype = 2048 then parse_ipv4_packet ethernet
      else if ethernet.ethertype = 2054 then parse_arp_packet ethernet
      else Event.Ignored)

/-- Bytes of a hardware address in wire order. -/
def MacAddr.bytes (m : MacAddr) : List Nat := [m.b0, m.b1, m.b2, m.b3, m.b4, m.b5]

/-- Bytes of an IPv4 address in wire order. -/
def Ipv4Addr.bytes (a : Ipv4Addr) : List Nat := [a.o0, a.o1, a.o2, a.o3]

/-- Big-endian encoding of a 16-bit field. -/
def be16 (n : Nat) : List Nat := [n / 256 % 256, n % 256]

/-- An Ethernet-II frame: destination, source, ethertype, payload. -/
def mkEthernetFrame (dst src : MacAddr) (ethertype : Nat) (payload : List Nat) :
    List Nat :=
  dst.bytes ++ src.bytes ++ be16 ethertype ++ payload

/-- A well-formed 28-byte ARP body: hardware type Ethernet, protocol type
IPv4, address lengths 6 and 4, then the given operation and addresses. -/
def mkArpPayload (op : Nat) (senderHw : MacAddr) (senderProto : Ipv4Addr)
    (targetHw : MacAddr) (targetProto : Ipv4Addr) : List Nat :=
  be16 1 ++ be16 2048 ++ [6, 4] ++ be16 op ++ senderHw.bytes ++ senderProto.bytes
    ++ targetHw.bytes ++ targetProto.bytes

/-- A well-formed UDP datagram with the given ports and payload. -/
def mkUdpDatagram (sport dport : Nat) (payload : List Nat) : List Nat :=
  be16 sport ++ be16 dport ++ be16 (8 + payload.length) ++ be16 0 ++ payload

/-- A well-formed option-free IPv4 header (version 4, header length 5,
protocol UDP, consistent total length) carrying a UDP datagram. -/
def mkIpv4UdpPayload (srcIp dstIp : Ipv4Addr) (sport dport : Nat)
    (udpPayload : List Nat) : List Nat :=
  [69, 0] ++ be16 (28 + udpPayload.length) ++ [0, 0, 0, 0] ++ [64, 17] ++ [0, 0]
    ++ srcIp.bytes ++ dstIp.bytes ++ mkUdpDatagram sport dport udpPayload

/-! Timekeeping.  Instants (`chrono::DateTime<Local>`) are modelled as integer
seconds; `chrono::Duration` as an integer number of seconds; `NaiveTime` as a
natural number of seconds since midnight. -/

/-- `DateTime::naive_local().time()` — second of the day of an instant. -/
def timeOfDay (now : Int) : Nat := (now % 86400).toNat

/-- `config::Period` — a time-of-day interval, bounds in seconds since
midnight (`NaiveTime`). -/
structure Period where
  start : Nat
  endt : Nat
deriving DecidableEq

/-- `Period::is_between`. -/
def Period.is_between (p : Period) (time : Nat) : Bool :=
  if p.start ≤ p.endt then decide (time ≥ p.start ∧ time ≤ p.endt)
  else decide (time ≥ p.start ∨ time ≤ p.endt)

/-- `metadata::DEFAULT_ICON`. -/
def DEFAULT_ICON : String := "👤"

/-- `metadata::Metadata`.  `last_notified` holds the instant of the last
fired notification, if any. -/
structure Metadata where
  name : String
  icon : Option String
  username : Option String
  subscriber_name : String
  chat_id : Int
  last_notified : Option Int
deriving DecidableEq

/-- `Metadata::should_notify`.  The Rust method mutates `self.last_notified`;
here the updated metadata is returned alongside the decision. -/
def Metadata.should_notify (m : Metadata) (cooldown : Option Int) (now : Int) :
    Bool × Metadata :=
  match cooldown with
  | none => (true, m)
  | some cd =>
    match m.last_notified with
    | some last =>
      if now - last ≥ cd then (true, { m with last_notified := some now })
      else (false, m)
    | none => (true, { m with last_notified := some now })

/-- Repeated calls of `should_notify` on the same device, threading the
mutated metadata; returns the decisions in order and the final metadata. -/
def notifySeq (m : Metadata) (cooldown : Option Int) :
    List Int → List Bool × Metadata
  | [] => ([], m)
  | t :: ts =>
    let r := m.should_notify cooldown t
    let rest := notifySeq r.2 cooldown ts
    (r.1 :: rest.1, rest.2)

/-- The `Display` instance of `Metadata`: an optional bracketed
messenger-handle link wrapping icon (default if unset) and name. -/
def Metadata.display (m : Metadata) : String :=
  (if m.username.isSome then "[" else "")
    ++ (m.icon.getD DEFAULT_ICON) ++ " " ++ m.name
    ++ (match m.username with
        | some u => "](t.me/" ++ u ++ ")"
        | none => "")

/-- `main::Status`. -/
inductive Status where
  | Arrived : Status
  | Left : Status
deriving DecidableEq

/-- The `Display` instance of `Status`. -/
def Status.display : Status → String
  | Status.Arrived => "arrived"
  | Status.Left => "left"

/-- `main::Tracking` — per-device online state. -/
structure Tracking where
  ip : Ipv4Addr
  outstanding : Nat
deriving DecidableEq

/-- `main::ALLOWED_PACKETS_LOST`. -/
def ALLOWED_PACKETS_LOST : Nat := 3

/-- `main::TICK_SECS`. -/
def TICK_SECS : Nat := 20

/-! `HashMap` fields are modelled as association lists; the daemon only ever
inserts a key after checking it is absent, so keys stay distinct along every
run that starts from the empty table. -/

/-- `HashMap::get` on an association list. -/
def lookupMac {α : Type} : List (MacAddr × α) → MacAddr → Option α
  | [], _ => none
  | (k, v) :: rest, mac => if k = mac then some v else lookupMac rest mac

/-- `HashMap::contains_key` on an association list. -/
def containsMac {α : Type} (l : List (MacAddr × α)) (mac : MacAddr) : Bool :=
  l.any (fun p => decide (p.1 = mac))

/-- In-place mutation of the value at a key (`get_mut`). -/
def updateMac {α : Type} : List (MacAddr × α) → MacAddr → α → List (MacAddr × α)
  | [], _, _ => []
  | (k, w) :: rest, mac, v =>
    if k = mac then (k, v) :: updateMac rest mac v
    else (k, w) :: updateMac rest mac v

/-- `HashMap::remove`. -/
def removeMac {α : Type} (l : List (MacAddr × α)) (mac : MacAddr) :
    List (MacAddr × α) :=
  l.filter (fun p => decide (p.1 ≠ mac))

/-- Reset the outstanding counter of an online entry to 0 (the occupied
branch of the entry API, and the redundant `get_mut` reset after it). -/
def setOutstandingZero : List (MacAddr × Tracking) → MacAddr →
    List (MacAddr × Tracking)
  | [], _ => []
  | (k, w) :: rest, mac =>
    if k = mac then (k, ⟨w.ip, 0⟩) :: setOutstandingZero rest mac
    else (k, w) :: setOutstandingZero rest mac

/-- One call of `telegram::Message::new(..).send(..)` as observed from
`HouseRat::notify`: which device, which status, and the arguments handed to
the transport. -/
structure Sent where
  mac : MacAddr
  status : Status
  chat_id : Int
  text : String
  silent : Bool
deriving DecidableEq

/-- `main::HouseRat` — the fields the event handlers read or write.  The
socket, HTTP client and interface identity are I/O handles; their effects are
returned as values (`Sent` lists) instead. -/
structure HouseRat where
  cooldown : Option Int
  quiet_period : Option Period
  rules : List (MacAddr × Metadata)
  online : List (MacAddr × Tracking)

/-- `HouseRat::notify`.  Unknown MAC: log and return.  Otherwise run the
cooldown gate (mutating the rule's metadata), and on firing hand
`{chat_id, text, silent}` to the transport; the transport's own result is
only logged, so it does not appear in the state. -/
def HouseRat.notify (s : HouseRat) (mac : MacAddr) (status : Status) (now : Int) :
    HouseRat × List Sent :=
  match lookupMac s.rules mac with
  | none => (s, [])
  | some md =>
    let fm := md.should_notify s.cooldown now
    let s' : HouseRat := { s with rules := updateMac s.rules mac fm.2 }
    if fm.1 then
      let q := match s.quiet_period with
        | some p => p.is_between (timeOfDay now)
        | none => false
      (s', [⟨mac, status, md.chat_id, md.display ++ " " ++ status.display, q⟩])
    else (s', [])

/-- `HouseRat::handle_event`.  `Connected`: notify an arrival only when the
device has no online entry (and do not create one).  `Alive`: when the MAC is
in the rules, reset the outstanding counter if online, else insert a fresh
entry; then the source's redundant `get_mut` reset runs unconditionally. -/
def HouseRat.handle_event (s : HouseRat) (e : Event) (now : Int) :
    HouseRat × List Sent :=
  match e with
  | Event.Connected mac =>
    if containsMac s.online mac then (s, [])
    else s.notify mac Status.Arrived now
  | Event.Alive mac ip =>
    let online1 :=
      if containsMac s.rules mac then
        if containsMac s.online mac then setOutstandingZero s.online mac
        else s.online ++ [(mac, ⟨ip, 0⟩)]
      else s.online
    ({ s with online := setOutstandingZero online1 mac }, [])
  | Event.Ignored => (s, [])

/-- The first loop of `HouseRat::handle_clock` over the online table:
entries under the loss threshold get a keepalive probe — the counter
increments only when the send succeeds (`sendOk`) — and entries at or above
it are collected for eviction. -/
def clockTick (l : List (MacAddr × Tracking)) (sendOk : MacAddr → Bool) :
    List (MacAddr × Tracking) × List MacAddr :=
  match l with
  | [] => ([], [])
  | (mac, t) :: rest =>
    let r := clockTick rest sendOk
    if t.outstanding < ALLOWED_PACKETS_LOST then
      ((mac, if sendOk mac then { t with outstanding := t.outstanding + 1 } else t)
        :: r.1, r.2)
    else ((mac, t) :: r.1, mac :: r.2)

/-- The second loop of `HouseRat::handle_clock`: each collected MAC is
removed from the online table and then notified as `Left`. -/
def evictAll (s : HouseRat) (macs : List MacAddr) (now : Int) :
    HouseRat × List Sent :=
  match macs with
  | [] => (s, [])
  | m :: ms =>
    let s1 : HouseRat := { s with online := removeMac s.online m }
    let r1 := s1.notify m Status.Left now
    let r2 := evictAll r1.1 ms now
    (r2.1, r1.2 ++ r2.2)

/-- `HouseRat::handle_clock`. -/
def HouseRat.handle_clock (s : HouseRat) (sendOk : MacAddr → Bool) (now : Int) :
    HouseRat × List Sent :=
  let ct := clockTick s.online sendOk
  evictAll { s with online := ct.1 } ct.2 now

/-- `HouseRat::handle_resolve` sends one ARP probe to the resolved address;
it touches neither the online table nor the rules and sends no notification. -/
def HouseRat.handle_resolve (s : HouseRat) (_mac : MacAddr) (_ip : Ipv4Addr) :
    HouseRat × List Sent :=
  (s, [])

/-- One arm of the `select!` loop in `HouseRat::run`. -/
inductive Input where
  | ev (e : Event) (now : Int) : Input
  | tick (sendOk : MacAddr → Bool) (now : Int) : Input
  | resolve (mac : MacAddr) (ip : Ipv4Addr) : Input

/-- Dispatch of one observed input, as in the `select!` loop. -/
def HouseRat.step (s : HouseRat) : Input → HouseRat × List Sent
  | Input.ev e now => s.handle_event e now
  | Input.tick sendOk now => s.handle_clock sendOk now
  | Input.resolve mac ip => s.handle_resolve mac ip

/-- The event loop over a list of observed inputs, collecting every
notification handed to the transport. -/
def HouseRat.run (s : HouseRat) : List Input → HouseRat × List Sent
  | [] => (s, [])
  | i :: is =>
    let r := s.step i
    let rest := r.1.run is
    (rest.1, r.2 ++ rest.2)

/-! The telegram module (`telegram.rs`): the serialized body of the single
outbound POST. -/

/-- A JSON scalar as serde serializes the `Message` fields. -/
inductive JsonVal where
  | jint (i : Int) : JsonVal
  | jstr (s : String) : JsonVal
  | jbool (b : Bool) : JsonVal
deriving DecidableEq

/-- `telegram::Message` — the serde-serialized struct, fields in declaration
order. -/
structure Message where
  chat_id : Int
  text : String
  parse_mode : String
  disable_web_page_preview : Bool
deriving DecidableEq

/-- `Message::new` as defined in `telegram.rs`: two arguments, fixed
`parse_mode` and `disable_web_page_preview`. -/
def Message.new (chat_id : Int) (text : String) : Message :=
  ⟨chat_id, text, "Markdown", true⟩

/-- The JSON body serde produces for a `Message` (field order is declaration
order). -/
def Message.toJson (m : Message) : List (String × JsonVal) :=
  [("chat_id", JsonVal.jint m.chat_id), ("text", JsonVal.jstr m.text),
   ("parse_mode", JsonVal.jstr m.parse_mode),
   ("disable_web_page_preview", JsonVal.jbool m.disable_web_page_preview)]

/-- The API method of `Message` (`Type::method`). -/
def Message.method : String := "sendMessage"

/-! Concrete fixtures used by witnesses and counterexamples. -/

/-- A concrete device hardware address. -/
def macA : MacAddr := ⟨1, 2, 3, 4, 5, 6⟩

/-- A second concrete hardware address. -/
def macB : MacAddr := ⟨7, 8, 9, 10, 11, 12⟩

/-- A concrete IPv4 address. -/
def ipA : Ipv4Addr := ⟨10, 0, 0, 2⟩

/-- A second concrete IPv4 address. -/
def ipB : Ipv4Addr := ⟨10, 0, 0, 9⟩

/-- A concrete configured device. -/
def mdA : Metadata := ⟨"laptop", none, none, "alice", 42, none⟩

/-! Generic facts about the association-list model of `HashMap`. -/

theorem containsMac_eq_anyKeys {α : Type} (l : List (MacAddr × α)) (m : MacAddr) :
    containsMac l m = (l.map Prod.fst).any (fun k => decide (k = m)) := by
  unfold containsMac
  induction l with
  | nil => rfl
  | cons p rest ih => simp only [List.any_cons, List.map_cons, ih]

theorem containsMac_eq_true_iff {α : Type} (l : List (MacAddr × α)) (m : MacAddr) :
    containsMac l m = true ↔ m ∈ l.map Prod.fst := by
  simp [containsMac, List.any_eq_true, List.mem_map]

theorem containsMac_congr_keys {α β : Type} {l : List (MacAddr × α)}
    {l' : List (MacAddr × β)} (h : l.map Prod.fst = l'.map Prod.fst) (m : MacAddr) :
    containsMac l m = containsMac l' m := by
  rw [containsMac_eq_anyKeys, containsMac_eq_anyKeys, h]

theorem lookupMac_eq_some_mem {α : Type} {l : List (MacAddr × α)} {m : MacAddr}
    {v : α} (h : lookupMac l m = some v) : (m, v) ∈ l := by
  induction l with
  | nil => simp [lookupMac] at h
  | cons p rest ih =>
    obtain ⟨k, w⟩ := p
    by_cases hk : k = m
    · subst hk
      simp only [lookupMac, eq_self_iff_true, if_true, Option.some.injEq] at h
      subst h
      exact List.mem_cons_self _ _
    · simp only [lookupMac, if_neg hk] at h
      exact List.mem_cons_of_mem _ (ih h)

theorem containsMac_of_lookupMac_some {α : Type} {l : List (MacAddr × α)}
    {m : MacAddr} {v : α} (h : lookupMac l m = some v) : containsMac l m = true :=
  (containsMac_eq_true_iff l m).2
    (List.mem_map.2 ⟨(m, v), lookupMac_eq_some_mem h, rfl⟩)

theorem keys_updateMac {α : Type} (l : List (MacAddr × α)) (m : MacAddr) (v : α) :
    (updateMac l m v).map Prod.fst = l.map Prod.fst := by
  induction l with
  | nil => rfl
  | cons p rest ih =>
    obtain ⟨k, w⟩ := p
    by_cases hk : k = m <;> simp [updateMac, hk, ih]

theorem keys_setOutstandingZero (l : List (MacAddr × Tracking)) (m : MacAddr) :
    (setOutstandingZero l m).map Prod.fst = l.map Prod.fst := by
  induction l with
  | nil => rfl
  | cons p rest ih =>
    obtain ⟨k, w⟩ := p
    by_cases hk : k = m <;> simp [setOutstandingZero, hk, ih]

theorem mem_removeMac {α : Type} {l : List (MacAddr × α)} {m : MacAddr}
    {p : MacAddr × α} (h : p ∈ removeMac l m) : p ∈ l ∧ p.1 ≠ m := by
  simp only [removeMac, List.mem_filter, decide_eq_true_eq] at h
  exact h

/-- C7: `Period.is_between` returns true exactly when either the interval
does not wrap (`start <= end`) and `start <= t <= end`, or it wraps
(`start > end`) and `t >= start` or `t <= end`; for the period 23:00-06:00
the time 23:30 is inside and 07:00 outside, and for 00:00-06:00 the time
23:30 is outside. -/
theorem is_between_spec :
    (∀ (p : Period) (t : Nat),
      p.is_between t = true ↔
        (p.start ≤ p.endt ∧ p.start ≤ t ∧ t ≤ p.endt) ∨
        (p.endt < p.start ∧ (p.start ≤ t ∨ t ≤ p.endt))) ∧
    Period.is_between ⟨82800, 21600⟩ 84600 = true ∧
    Period.is_between ⟨82800, 21600⟩ 25200 = false ∧
    Period.is_between ⟨0, 21600⟩ 84600 = false := by
  refine ⟨?_, by decide, by decide, by decide⟩
  intro p t
  unfold Period.is_between
  split <;> simp <;> omega

/-- Witness for C7 at a concrete period and time. -/
theorem is_between_spec_witness :
    Period.is_between ⟨10, 20⟩ 15 = true ↔
      ((10 : Nat) ≤ 20 ∧ (10 : Nat) ≤ 15 ∧ (15 : Nat) ≤ 20) ∨
      ((20 : Nat) < 10 ∧ ((10 : Nat) ≤ 15 ∨ (15 : Nat) ≤ 20)) :=
  is_between_spec.1 ⟨10, 20⟩ 15

/-- C6: the cooldown gate.  With no cooldown every call fires and the
metadata is untouched; with a cooldown the first call fires and records
`now`, and a later call fires and re-records exactly when `now` minus the
recorded instant is at least the cooldown, otherwise it is suppressed with
no update; with cooldown 5 and calls at 0, 1, 5, 6, 9, 10 the decisions are
true, false, true, false, false, true. -/
theorem should_notify_spec :
    (∀ (m : Metadata) (now : Int), m.should_notify none now = (true, m)) ∧
    (∀ (m : Metadata) (cd now : Int), m.last_notified = none →
      m.should_notify (some cd) now = (true, { m with last_notified := some now })) ∧
    (∀ (m : Metadata) (cd now last : Int), m.last_notified = some last →
      m.should_notify (some cd) now =
        if now - last ≥ cd then (true, { m with last_notified := some now })
        else (false, m)) ∧
    (∀ (m : Metadata), m.last_notified = none →
      (notifySeq m (some 5) [0, 1, 5, 6, 9, 10]).1 =
        [true, false, true, false, false, true]) := by
  refine ⟨fun m now => rfl, fun m cd now h => ?_, fun m cd now last h => ?_, fun m h => ?_⟩
  · simp [Metadata.should_notify, h]
  · simp only [Metadata.should_notify, h]
  · simp [notifySeq, Metadata.should_notify, h]

/-- Witness for C6: the six-call sequence on a concrete fresh device. -/
theorem should_notify_spec_witness :
    mdA.last_notified = none ∧
    (notifySeq mdA (some 5) [0, 1, 5, 6, 9, 10]).1 =
      [true, false, true, false, false, true] :=
  ⟨rfl, should_notify_spec.2.2.2 mdA rfl⟩

/-- C8: what `telegram.rs` actually serializes.  The JSON body of a
`Message` holds `chat_id`, `text`, `parse_mode = "Markdown"` and
`disable_web_page_preview = true`; there is no `disable_notification`
field, and `Message::new` takes no silent flag (its caller in `main.rs`
passes one — the two files disagree). -/
theorem message_serialized_fields :
    (Message.new 42 "x").toJson =
      [("chat_id", JsonVal.jint 42), ("text", JsonVal.jstr "x"),
       ("parse_mode", JsonVal.jstr "Markdown"),
       ("disable_web_page_preview", JsonVal.jbool true)] ∧
    ((Message.new 42 "x").toJson.map Prod.fst).contains "disable_notification" = false :=
  ⟨rfl, rfl⟩

/-- C2 amended: on a clock tick every online entry below the loss threshold
is probed and its counter increments by exactly 1 only when the send
succeeds; a failed send leaves the counter unchanged (it does not count
against the budget), and neither outcome stops the loop — the whole table is
processed, and the entries at or above the threshold are the ones collected
for eviction. -/
theorem clockTick_spec (l : List (MacAddr × Tracking)) (sendOk : MacAddr → Bool) :
    (clockTick l sendOk).1 = l.map (fun p =>
      if p.2.outstanding < ALLOWED_PACKETS_LOST ∧ sendOk p.1 = true then
        (p.1, ⟨p.2.ip, p.2.outstanding + 1⟩) else p) ∧
    (clockTick l sendOk).2 =
      (l.filter (fun p =>
        decide (ALLOWED_PACKETS_LOST ≤ p.2.outstanding))).map Prod.fst := by
  induction l with
  | nil => exact ⟨rfl, rfl⟩
  | cons hd tl ih =>
    obtain ⟨m, t⟩ := hd
    by_cases h1 : t.outstanding < ALLOWED_PACKETS_LOST
    · by_cases h2 : sendOk m = true
      · constructor
        · simp [clockTick, h1, h2, ih.1]
        · simp [clockTick, h1, ih.2, Nat.not_le_of_lt h1]
      · constructor
        · simp [clockTick, h1, h2, ih.1]
        · simp [clockTick, h1, ih.2, Nat.not_le_of_lt h1]
    · constructor
      · simp [clockTick, h1, ih.1]
      · simp [clockTick, h1, ih.2, Nat.le_of_not_lt h1]

/-- Counterexample to C2 as stated: a device at outstanding 0 whose
keepalive send fails keeps outstanding 0 after the tick — the counter is not
incremented on a send failure. -/
theorem clock_send_failure_cex :
    ((HouseRat.mk none none [(macA, mdA)] [(macA, ⟨ipA, 0⟩)]).handle_clock
        (fun _ => false) 0).1.online = [(macA, ⟨ipA, 0⟩)] := by decide

theorem lookupMac_setOutstandingZero_self (l : List (MacAddr × Tracking))
    (m : MacAddr) :
    lookupMac (setOutstandingZero l m) m =
      (lookupMac l m).map (fun t => ⟨t.ip, 0⟩) := by
  induction l with
  | nil => rfl
  | cons p rest ih =>
    obtain ⟨k, w⟩ := p
    by_cases hk : k = m
    · subst hk
      simp [setOutstandingZero, lookupMac]
    · simp [setOutstandingZero, lookupMac, hk, ih]

theorem lookupMac_setOutstandingZero_ne (l : List (MacAddr × Tracking))
    (m k : MacAddr) (hk : k ≠ m) :
    lookupMac (setOutstandingZero l m) k = lookupMac l k := by
  induction l with
  | nil => rfl
  | cons p rest ih =>
    obtain ⟨k', w⟩ := p
    by_cases h1 : k' = m
    · have h2 : k' ≠ k := fun e => hk (e ▸ h1)
      simp [setOutstandingZero, lookupMac, h1, h2, Ne.symm hk, ih]
    · by_cases h2 : k' = k
      · subst h2
        simp [setOutstandingZero, lookupMac, h1]
      · simp [setOutstandingZero, lookupMac, h1, h2, ih]

theorem setOutstandingZero_idem (l : List (MacAddr × Tracking)) (m : MacAddr) :
    setOutstandingZero (setOutstandingZero l m) m = setOutstandingZero l m := by
  induction l with
  | nil => rfl
  | cons p rest ih =>
    obtain ⟨k, w⟩ := p
    by_cases hk : k = m <;> simp [setOutstandingZero, hk, ih]

/-- `handle_event` on `Alive` for a MAC that is already online reduces to a
reset of that entry's outstanding counter, whether or not the MAC is in the
rules (the source's trailing `get_mut` reset runs unconditionally). -/
theorem handle_event_alive_online (s : HouseRat) (mac : MacAddr) (ip : Ipv4Addr)
    (now : Int) (hc : containsMac s.online mac = true) :
    s.handle_event (Event.Alive mac ip) now =
      ({ s with online := setOutstandingZero s.online mac }, []) := by
  unfold HouseRat.handle_event
  by_cases hr : containsMac s.rules mac = true
  · simp [hr, hc, setOutstandingZero_idem]
  · simp [hr, hc]

/-- C3 amended: an `Alive(mac, ip)` event for a MAC already online resets
that entry's outstanding counter to 0 but leaves its last-known IP
unchanged (the occupied branch of the entry API never writes `ip`); the
MAC key, every other entry, the rules and the configuration are untouched,
no notification is sent, and repeating the event is idempotent. -/
theorem alive_resets_outstanding_keeps_ip (s : HouseRat) (mac : MacAddr)
    (ip : Ipv4Addr) (t : Tracking) (now now' : Int)
    (ho : lookupMac s.online mac = some t) :
    lookupMac (s.handle_event (Event.Alive mac ip) now).1.online mac =
      some ⟨t.ip, 0⟩ ∧
    (∀ k, k ≠ mac →
      lookupMac (s.handle_event (Event.Alive mac ip) now).1.online k =
        lookupMac s.online k) ∧
    (s.handle_event (Event.Alive mac ip) now).1.rules = s.rules ∧
    (s.handle_event (Event.Alive mac ip) now).1.cooldown = s.cooldown ∧
    (s.handle_event (Event.Alive mac ip) now).1.quiet_period = s.quiet_period ∧
    (s.handle_event (Event.Alive mac ip) now).2 = [] ∧
    (s.handle_event (Event.Alive mac ip) now).1.handle_event
        (Event.Alive mac ip) now' =
      ((s.handle_event (Event.Alive mac ip) now).1, []) := by
  have hc : containsMac s.online mac = true := containsMac_of_lookupMac_some ho
  rw [handle_event_alive_online s mac ip now hc]
  refine ⟨?_, ?_, rfl, rfl, rfl, rfl, ?_⟩
  · simp [lookupMac_setOutstandingZero_self, ho]
  · intro k hk
    exact lookupMac_setOutstandingZero_ne s.online mac k hk
  · have hc2 : containsMac (setOutstandingZero s.online mac) mac = true := by
      rw [containsMac_congr_keys (keys_setOutstandingZero s.online mac) mac]
      exact hc
    rw [handle_event_alive_online _ mac ip now' hc2]
    simp [setOutstandingZero_idem]

/-- Witness for C3 at a concrete online device whose stored IP differs from
the event's IP. -/
theorem alive_resets_outstanding_witness :
    lookupMac [(macA, (⟨ipA, 5⟩ : Tracking))] macA = some ⟨ipA, 5⟩ ∧
    lookupMac ((HouseRat.mk none none [(macA, mdA)]
        [(macA, ⟨ipA, 5⟩)]).handle_event (Event.Alive macA ipB) 0).1.online macA =
      some ⟨ipA, 0⟩ :=
  ⟨by decide,
    (alive_resets_outstanding_keeps_ip ⟨none, none, [(macA, mdA)], [(macA, ⟨ipA, 5⟩)]⟩
      macA ipB ⟨ipA, 5⟩ 0 0 (by decide)).1⟩

/-- Counterexample to C3 as stated: after `Alive(macA, ipB)` for a device
stored with IP `ipA`, the entry still holds `ipA`, not the event's `ipB` —
the last-known IP is not updated for an already-online device. -/
theorem alive_ip_not_updated_cex :
    lookupMac ((HouseRat.mk none none [(macA, mdA)]
        [(macA, ⟨ipA, 5⟩)]).handle_event (Event.Alive macA ipB) 0).1.online macA =
      some ⟨ipA, 0⟩ ∧ (⟨ipA, 0⟩ : Tracking) ≠ ⟨ipB, 0⟩ := by decide

/-- C1 amended: with loss threshold 3, starting from an `Alive` event
(outstanding 0) and with every probe send succeeding, the device is still
online with outstanding 2 after two ticks; on the 3rd consecutive tick a
further probe is sent and outstanding reaches 3 with the device still
online and no notification; only on the 4th tick is the device removed
(before any probe for it) and the `Left` notification fired — eviction
happens on the tick after `outstanding` has reached the threshold, not the
tick it would reach it. -/
theorem presence_eviction_fourth_tick (md : Metadata) (m : MacAddr)
    (ip : Ipv4Addr) (t0 t1 t2 t3 t4 : Int) :
    let s0 : HouseRat := ⟨none, none, [(m, md)], []⟩
    let ok : MacAddr → Bool := fun _ => true
    let sA := (s0.handle_event (Event.Alive m ip) t0).1
    let r1 := sA.handle_clock ok t1
    let r2 := r1.1.handle_clock ok t2
    let r3 := r2.1.handle_clock ok t3
    let r4 := r3.1.handle_clock ok t4
    sA.online = [(m, ⟨ip, 0⟩)] ∧
    r1.1.online = [(m, ⟨ip, 1⟩)] ∧ r1.2 = [] ∧
    r2.1.online = [(m, ⟨ip, 2⟩)] ∧ r2.2 = [] ∧
    r3.1.online = [(m, ⟨ip, 3⟩)] ∧ r3.2 = [] ∧
    r4.1.online = [] ∧
    r4.2 = [⟨m, Status.Left, md.chat_id,
      md.display ++ " " ++ Status.Left.display, false⟩] := by
  simp [HouseRat.handle_event, HouseRat.handle_clock, HouseRat.notify, clockTick,
    evictAll, containsMac, setOutstandingZero, lookupMac, updateMac, removeMac,
    Metadata.should_notify, ALLOWED_PACKETS_LOST, timeOfDay, Status.display]

/-- Counterexample to C1 as stated: after one `Alive` and three ticks with
no reply (all sends succeeding), the device is still in the online table
with outstanding 3 and the third tick produced no `Left` notification. -/
theorem presence_eviction_third_tick_cex :
    lookupMac (((((HouseRat.mk none none [(macA, mdA)] []).handle_event
            (Event.Alive macA ipA) 0).1.handle_clock (fun _ => true) 20).1.handle_clock
          (fun _ => true) 40).1.handle_clock (fun _ => true) 60).1.online macA =
      some ⟨ipA, 3⟩ ∧
    (((((HouseRat.mk none none [(macA, mdA)] []).handle_event
          (Event.Alive macA ipA) 0).1.handle_clock (fun _ => true) 20).1.handle_clock
        (fun _ => true) 40).1.handle_clock (fun _ => true) 60).2 = [] := by decide

theorem notify_online (s : HouseRat) (mac : MacAddr) (st : Status) (now : Int) :
    (s.notify mac st now).1.online = s.online := by
  unfold HouseRat.notify
  cases lookupMac s.rules mac
  · rfl
  · dsimp only
    split <;> rfl

theorem notify_rules_keys (s : HouseRat) (mac : MacAddr) (st : Status) (now : Int) :
    (s.notify mac st now).1.rules.map Prod.fst = s.rules.map Prod.fst := by
  unfold HouseRat.notify
  cases lookupMac s.rules mac
  · rfl
  · dsimp only
    split <;> exact keys_updateMac _ _ _

theorem notify_sent (s : HouseRat) (mac : MacAddr) (st : Status) (now : Int) :
    ∀ x ∈ (s.notify mac st now).2, x.mac = mac ∧ containsMac s.rules mac = true := by
  unfold HouseRat.notify
  cases h : lookupMac s.rules mac with
  | none => intro x hx; simp at hx
  | some md =>
    dsimp only
    split
    · intro x hx
      simp only [List.mem_singleton] at hx
      subst hx
      exact ⟨rfl, containsMac_of_lookupMac_some h⟩
    · intro x hx
      simp at hx

theorem evictAll_online (s : HouseRat) (macs : List MacAddr) (now : Int) :
    (evictAll s macs now).1.online = macs.foldl removeMac s.online := by
  induction macs generalizing s with
  | nil => rfl
  | cons m ms ih =>
    simp only [evictAll, List.foldl_cons]
    rw [ih, notify_online]

theorem evictAll_rules_keys (s : HouseRat) (macs : List MacAddr) (now : Int) :
    (evictAll s macs now).1.rules.map Prod.fst = s.rules.map Prod.fst := by
  induction macs generalizing s with
  | nil => rfl
  | cons m ms ih =>
    simp only [evictAll]
    rw [ih, notify_rules_keys]

theorem evictAll_sent (s : HouseRat) (macs : List MacAddr) (now : Int) :
    ∀ x ∈ (evictAll s macs now).2, containsMac s.rules x.mac = true := by
  induction macs generalizing s with
  | nil => intro x hx; simp [evictAll] at hx
  | cons m ms ih =>
    intro x hx
    simp only [evictAll, List.mem_append] at hx
    rcases hx with hx | hx
    · obtain ⟨e1, e2⟩ := notify_sent _ m Status.Left now x hx
      rw [e1]
      exact e2
    · have hrec := ih _ x hx
      rw [containsMac_congr_keys (notify_rules_keys _ m Status.Left now) x.mac] at hrec
      exact hrec

theorem mem_foldl_removeMac {α : Type} (ms : List MacAddr) (l : List (MacAddr × α))
    (p : MacAddr × α) (h : p ∈ ms.foldl removeMac l) : p ∈ l ∧ p.1 ∉ ms := by
  induction ms generalizing l with
  | nil => simpa using h
  | cons m ms ih =>
    simp only [List.foldl_cons] at h
    obtain ⟨h1, h2⟩ := ih _ h
    obtain ⟨h3, h4⟩ := mem_removeMac h1
    refine ⟨h3, fun hm => ?_⟩
    rcases List.mem_cons.1 hm with e | e
    · exact h4 e
    · exact h2 e

theorem keys_clockTick (l : List (MacAddr × Tracking)) (f : MacAddr → Bool) :
    (clockTick l f).1.map Prod.fst = l.map Prod.fst := by
  induction l with
  | nil => rfl
  | cons hd tl ih =>
    obtain ⟨m, t⟩ := hd
    by_cases h1 : t.outstanding < ALLOWED_PACKETS_LOST
    · simp [clockTick, h1, ih]
    · simp [clockTick, h1, ih]

theorem clockTick_left_keys (l : List (MacAddr × Tracking)) (f : MacAddr → Bool) :
    ∀ m ∈ (clockTick l f).2, m ∈ l.map Prod.fst := by
  induction l with
  | nil => intro m hm; simp [clockTick] at hm
  | cons hd tl ih =>
    obtain ⟨k, t⟩ := hd
    intro m hm
    by_cases h1 : t.outstanding < ALLOWED_PACKETS_LOST
    · simp only [clockTick, if_pos h1] at hm
      exact List.mem_cons_of_mem _ (ih m hm)
    · simp only [clockTick, if_neg h1] at hm
      rcases List.mem_cons.1 hm with e | e
      · simp [e]
      · exact List.mem_cons_of_mem _ (ih m e)

theorem clockTick_mem_bound (l : List (MacAddr × Tracking)) (f : MacAddr → Bool)
    (p : MacAddr × Tracking) (h : p ∈ (clockTick l f).1) :
    p.2.outstanding ≤ ALLOWED_PACKETS_LOST ∨ p.1 ∈ (clockTick l f).2 := by
  induction l with
  | nil => simp [clockTick] at h
  | cons hd tl ih =>
    obtain ⟨m, t⟩ := hd
    by_cases h1 : t.outstanding < ALLOWED_PACKETS_LOST
    · simp only [clockTick, if_pos h1] at h ⊢
      rcases List.mem_cons.1 h with e | e
      · subst e
        by_cases h2 : f m = true
        · simp only [if_pos h2]
          left
          simp only [ALLOWED_PACKETS_LOST] at h1 ⊢
          omega
        · rw [Bool.not_eq_true] at h2
          simp only [h2, Bool.false_eq_true, if_false]
          left
          omega
      · exact ih e
    · simp only [clockTick, if_neg h1] at h ⊢
      rcases List.mem_cons.1 h with e | e
      · subst e
        exact Or.inr (List.mem_cons_self _ _)
      · rcases ih e with hb | hb
        · exact Or.inl hb
        · exact Or.inr (List.mem_cons_of_mem _ hb)

theorem clockTick_collects (l : List (MacAddr × Tracking)) (f : MacAddr → Bool)
    (m : MacAddr) (t : Tracking) (hm : (m, t) ∈ l)
    (ht : ALLOWED_PACKETS_LOST ≤ t.outstanding) : m ∈ (clockTick l f).2 := by
  induction l with
  | nil => simp at hm
  | cons hd tl ih =>
    obtain ⟨k, w⟩ := hd
    rcases List.mem_cons.1 hm with he | hm'
    · rw [Prod.mk.injEq] at he
      obtain ⟨rfl, rfl⟩ := he
      have h1 : ¬ t.outstanding < ALLOWED_PACKETS_LOST := by omega
      simp only [clockTick, if_neg h1]
      exact List.mem_cons_self _ _
    · by_cases h1 : w.outstanding < ALLOWED_PACKETS_LOST
      · simp only [clockTick, if_pos h1]
        exact ih hm'
      · simp only [clockTick, if_neg h1]
        exact List.mem_cons_of_mem _ (ih hm')

/-- C10 amended: on every clock tick each entry whose outstanding count is
at or above the loss threshold is removed from the online table before its
`Left` notification is attempted, and the resulting table depends only on
the prior table and the probe-send outcomes — never on the notification's
outcome (cooldown suppression, unknown-MAC early return, or transport
error).  After the tick no remaining entry is strictly above the threshold;
an entry can, however, sit exactly at the threshold (it is evicted on the
next tick). -/
theorem tick_eviction_spec (s : HouseRat) (sendOk : MacAddr → Bool) (now : Int) :
    (∀ p ∈ (s.handle_clock sendOk now).1.online,
      p.2.outstanding ≤ ALLOWED_PACKETS_LOST) ∧
    (∀ p ∈ s.online, ALLOWED_PACKETS_LOST ≤ p.2.outstanding →
      containsMac (s.handle_clock sendOk now).1.online p.1 = false) ∧
    (s.handle_clock sendOk now).1.online =
      (clockTick s.online sendOk).2.foldl removeMac (clockTick s.online sendOk).1 := by
  have honline : (s.handle_clock sendOk now).1.online =
      (clockTick s.online sendOk).2.foldl removeMac (clockTick s.online sendOk).1 := by
    unfold HouseRat.handle_clock
    exact evictAll_online _ _ _
  refine ⟨?_, ?_, honline⟩
  · intro p hp
    rw [honline] at hp
    obtain ⟨h1, h2⟩ := mem_foldl_removeMac _ _ _ hp
    rcases clockTick_mem_bound _ _ _ h1 with hb | hb
    · exact hb
    · exact absurd hb h2
  · intro p hp hthr
    have hm : p.1 ∈ (clockTick s.online sendOk).2 :=
      clockTick_collects _ sendOk p.1 p.2 hp hthr
    rw [honline]
    by_contra hc
    rw [Bool.not_eq_false, containsMac_eq_true_iff] at hc
    obtain ⟨q, hq, he⟩ := List.mem_map.1 hc
    obtain ⟨hq1, hq2⟩ := mem_foldl_removeMac _ _ _ hq
    exact hq2 (he ▸ hm)

/-- Witness for C10 at a concrete state with one device at the threshold
and one below it. -/
theorem tick_eviction_spec_witness :
    (∀ p ∈ ((HouseRat.mk none none [(macA, mdA)]
        [(macA, ⟨ipA, 3⟩), (macB, ⟨ipB, 1⟩)]).handle_clock (fun _ => true) 0).1.online,
      p.2.outstanding ≤ ALLOWED_PACKETS_LOST) ∧
    (∀ p ∈ [(macA, (⟨ipA, 3⟩ : Tracking)), (macB, ⟨ipB, 1⟩)],
      ALLOWED_PACKETS_LOST ≤ p.2.outstanding →
      containsMac ((HouseRat.mk none none [(macA, mdA)]
          [(macA, ⟨ipA, 3⟩), (macB, ⟨ipB, 1⟩)]).handle_clock
        (fun _ => true) 0).1.online p.1 = false) ∧
    ((HouseRat.mk none none [(macA, mdA)]
        [(macA, ⟨ipA, 3⟩), (macB, ⟨ipB, 1⟩)]).handle_clock (fun _ => true) 0).1.online =
      (clockTick [(macA, ⟨ipA, 3⟩), (macB, ⟨ipB, 1⟩)] (fun _ => true)).2.foldl
        removeMac (clockTick [(macA, ⟨ipA, 3⟩), (macB, ⟨ipB, 1⟩)] (fun _ => true)).1 :=
  tick_eviction_spec ⟨none, none, [(macA, mdA)], [(macA, ⟨ipA, 3⟩), (macB, ⟨ipB, 1⟩)]⟩
    (fun _ => true) 0

/-- Counterexample to C10 as stated: a device at outstanding 2 whose probe
send succeeds ends the tick with outstanding 3, which is at the loss
threshold — the online table can hold an entry at the threshold right
after a tick. -/
theorem tick_at_threshold_cex :
    ((HouseRat.mk none none [(macA, mdA)] [(macA, ⟨ipA, 2⟩)]).handle_clock
        (fun _ => true) 0).1.online = [(macA, ⟨ipA, 3⟩)] ∧
    ALLOWED_PACKETS_LOST ≤ 3 := by decide

/-- Invariant of the event loop: every key of the online table is a key of
the configured rules. -/
def onlineKeysRuled (s : HouseRat) : Prop :=
  ∀ m ∈ s.online.map Prod.fst, containsMac s.rules m = true

theorem handle_event_preserves (s : HouseRat) (e : Event) (now : Int)
    (h : onlineKeysRuled s) :
    onlineKeysRuled (s.handle_event e now).1 ∧
    (s.handle_event e now).1.rules.map Prod.fst = s.rules.map Prod.fst ∧
    (∀ x ∈ (s.handle_event e now).2, containsMac s.rules x.mac = true) := by
  cases e with
  | Ignored =>
    exact ⟨h, rfl, fun x hx => by simp [HouseRat.handle_event] at hx⟩
  | Connected mac =>
    by_cases hc : containsMac s.online mac = true
    · have hev : s.handle_event (Event.Connected mac) now = (s, []) := by
        simp only [HouseRat.handle_event, if_pos hc]
      rw [hev]
      exact ⟨h, rfl, fun x hx => by simp at hx⟩
    · have hev : s.handle_event (Event.Connected mac) now =
          s.notify mac Status.Arrived now := by
        simp only [HouseRat.handle_event, if_neg hc]
      rw [hev]
      refine ⟨?_, notify_rules_keys s mac Status.Arrived now, ?_⟩
      · intro m hm
        rw [notify_online] at hm
        rw [containsMac_congr_keys (notify_rules_keys s mac Status.Arrived now) m]
        exact h m hm
      · intro x hx
        obtain ⟨e1, e2⟩ := notify_sent s mac Status.Arrived now x hx
        rw [e1]
        exact e2
  | Alive mac ip =>
    refine ⟨?_, rfl, fun x hx => by simp [HouseRat.handle_event] at hx⟩
    intro m hm
    simp only [HouseRat.handle_event] at hm
    rw [keys_setOutstandingZero] at hm
    by_cases hr : containsMac s.rules mac = true
    · rw [if_pos hr] at hm
      by_cases hc : containsMac s.online mac = true
      · rw [if_pos hc, keys_setOutstandingZero] at hm
        exact h m hm
      · rw [if_neg hc, List.map_append] at hm
        rcases List.mem_append.1 hm with hm' | hm'
        · exact h m hm'
        · simp only [List.map_cons, List.map_nil, List.mem_singleton] at hm'
          subst hm'
          exact hr
    · rw [if_neg hr] at hm
      exact h m hm

theorem handle_clock_preserves (s : HouseRat) (f : MacAddr → Bool) (now : Int)
    (h : onlineKeysRuled s) :
    onlineKeysRuled (s.handle_clock f now).1 ∧
    (s.handle_clock f now).1.rules.map Prod.fst = s.rules.map Prod.fst ∧
    (∀ x ∈ (s.handle_clock f now).2, containsMac s.rules x.mac = true) := by
  have honline : (s.handle_clock f now).1.online =
      (clockTick s.online f).2.foldl removeMac (clockTick s.online f).1 := by
    unfold HouseRat.handle_clock
    exact evictAll_online _ _ _
  have hkeys : (s.handle_clock f now).1.rules.map Prod.fst = s.rules.map Prod.fst := by
    unfold HouseRat.handle_clock
    exact evictAll_rules_keys _ _ _
  refine ⟨?_, hkeys, ?_⟩
  · intro m hm
    rw [honline] at hm
    rw [containsMac_congr_keys hkeys m]
    obtain ⟨q, hq, he⟩ := List.mem_map.1 hm
    obtain ⟨hq1, _⟩ := mem_foldl_removeMac _ _ _ hq
    have : m ∈ (clockTick s.online f).1.map Prod.fst := List.mem_map.2 ⟨q, hq1, he⟩
    rw [keys_clockTick] at this
    exact h m this
  · intro x hx
    have := evictAll_sent _ _ now x (by
      unfold HouseRat.handle_clock at hx
      exact hx)
    exact this

theorem step_preserves (s : HouseRat) (i : Input) (h : onlineKeysRuled s) :
    onlineKeysRuled (s.step i).1 ∧
    (s.step i).1.rules.map Prod.fst = s.rules.map Prod.fst ∧
    (∀ x ∈ (s.step i).2, containsMac s.rules x.mac = true) := by
  cases i with
  | ev e now => exact handle_event_preserves s e now h
  | tick f now => exact handle_clock_preserves s f now h
  | resolve mac ip =>
    exact ⟨h, rfl, fun x hx => by
      simp [HouseRat.step, HouseRat.handle_resolve] at hx⟩

/-- C9: along every run of the event loop from a state whose online keys
are all configured, a MAC that is not a key of the rules mapping is never a
key of the online table and no notification for it is ever handed to the
transport. -/
theorem unknown_macs_never_enter_or_notify (s : HouseRat) (inputs : List Input)
    (h : onlineKeysRuled s) :
    onlineKeysRuled (s.run inputs).1 ∧
    (∀ x ∈ (s.run inputs).2, containsMac s.rules x.mac = true) := by
  induction inputs generalizing s with
  | nil => exact ⟨h, fun x hx => by simp [HouseRat.run] at hx⟩
  | cons i is ih =>
    obtain ⟨h1, h2, h3⟩ := step_preserves s i h
    obtain ⟨ih1, ih2⟩ := ih _ h1
    refine ⟨ih1, ?_⟩
    intro x hx
    simp only [HouseRat.run, List.mem_append] at hx
    rcases hx with hx | hx
    · exact h3 x hx
    · rw [← containsMac_congr_keys h2 x.mac]
      exact ih2 x hx

/-- Witness for C9: a run with an Alive for a configured MAC, a tick, and a
Connected for an unconfigured MAC. -/
theorem unknown_macs_witness :
    onlineKeysRuled ⟨none, none, [(macA, mdA)], []⟩ ∧
    (onlineKeysRuled ((HouseRat.mk none none [(macA, mdA)] []).run
        [Input.ev (Event.Alive macA ipA) 0, Input.tick (fun _ => true) 20,
         Input.ev (Event.Connected macB) 30]).1 ∧
     ∀ x ∈ ((HouseRat.mk none none [(macA, mdA)] []).run
        [Input.ev (Event.Alive macA ipA) 0, Input.tick (fun _ => true) 20,
         Input.ev (Event.Connected macB) 30]).2,
       containsMac [(macA, mdA)] x.mac = true) :=
  ⟨fun m hm => by simp at hm,
    unknown_macs_never_enter_or_notify ⟨none, none, [(macA, mdA)], []⟩
      [Input.ev (Event.Alive macA ipA) 0, Input.tick (fun _ => true) 20,
       Input.ev (Event.Connected macB) 30] (fun m hm => by simp at hm)⟩

/-- C4 amended: for every input carrying at least a complete 14-byte
Ethernet header, `parse_packet` returns exactly one event and never fails —
truncated or malformed inner headers classify as `Ignored` via the
`try_event!` macro.  Inputs shorter than an Ethernet header make the
`.unwrap()` on `EthernetPacket::new` panic, so the claim's "every byte
sequence including the empty one" does not hold. -/
theorem parse_packet_header_total (data : List Nat) (h : 14 ≤ data.length) :
    (parse_packet data).isSome = true := by
  rcases data with _ | ⟨d0, data⟩; · simp at h
  rcases data with _ | ⟨d1, data⟩; · simp at h
  rcases data with _ | ⟨d2, data⟩; · simp at h
  rcases data with _ | ⟨d3, data⟩; · simp at h
  rcases data with _ | ⟨d4, data⟩; · simp at h
  rcases data with _ | ⟨d5, data⟩; · simp at h
  rcases data with _ | ⟨d6, data⟩; · simp at h
  rcases data with _ | ⟨d7, data⟩; · simp at h
  rcases data with _ | ⟨d8, data⟩; · simp at h
  rcases data with _ | ⟨d9, data⟩; · simp at h
  rcases data with _ | ⟨d10, data⟩; · simp at h
  rcases data with _ | ⟨d11, data⟩; · simp at h
  rcases data with _ | ⟨d12, data⟩; · simp at h
  rcases data with _ | ⟨d13, data⟩; · simp at h
  rfl

/-- Witness for C4 on a concrete 14-byte frame of zeros. -/
theorem parse_packet_header_total_witness :
    14 ≤ (List.replicate 14 0).length ∧
    (parse_packet (List.replicate 14 0)).isSome = true :=
  ⟨by decide, parse_packet_header_total (List.replicate 14 0) (by decide)⟩

/-- Counterexample to C4 as stated: on the empty byte sequence the
classifier does not return an event — the `.unwrap()` of
`EthernetPacket::new` panics (modelled as `none`). -/
theorem parse_packet_empty_cex : parse_packet [] = none := rfl

theorem be16_decode (n : Nat) (h : n < 65536) :
    n / 256 % 256 * 256 + n % 256 = n := by omega

theorem parse_packet_mkEthernetFrame (dst src : MacAddr) (et : Nat)
    (pl : List Nat) (h : et < 65536) :
    parse_packet (mkEthernetFrame dst src et pl) =
      some (if et = 2048 then parse_ipv4_packet ⟨dst, src, et, pl⟩
        else if et = 2054 then parse_arp_packet ⟨dst, src, et, pl⟩
        else Event.Ignored) := by
  obtain ⟨a0, a1, a2, a3, a4, a5⟩ := dst
  obtain ⟨b0, b1, b2, b3, b4, b5⟩ := src
  simp only [mkEthernetFrame, MacAddr.bytes, be16, List.cons_append,
    List.nil_append, parse_packet, EthernetPacket.new]
  rw [be16_decode et h]

theorem parse_arp_mkArpPayload (e : Nat) (dst src sh th : MacAddr)
    (sp tp : Ipv4Addr) (op : Nat) (hop : op < 65536) :
    parse_arp_packet ⟨dst, src, e, mkArpPayload op sh sp th tp⟩ =
      if (op = 1 ∧ sp = tp) ∨ op = 2 then Event.Alive sh sp
      else Event.Ignored := by
  obtain ⟨a0, a1, a2, a3, a4, a5⟩ := sh
  obtain ⟨b0, b1, b2, b3, b4, b5⟩ := th
  obtain ⟨c0, c1, c2, c3⟩ := sp
  obtain ⟨d0, d1, d2, d3⟩ := tp
  simp only [mkArpPayload, be16, MacAddr.bytes, Ipv4Addr.bytes, List.cons_append,
    List.nil_append, parse_arp_packet, ArpPacket.new]
  rw [be16_decode op hop]

theorem parse_ipv4_mkIpv4Udp (e : Nat) (dst src : MacAddr) (sip dip : Ipv4Addr)
    (sport dport : Nat) (pl : List Nat) (hs : sport < 65536) (hd : dport < 65536)
    (hl : pl.length ≤ 65507) :
    parse_ipv4_packet ⟨dst, src, e, mkIpv4UdpPayload sip dip sport dport pl⟩ =
      if sport = 68 ∧ dport = 67 then Event.Connected src else Event.Ignored := by
  obtain ⟨c0, c1, c2, c3⟩ := sip
  obtain ⟨d0, d1, d2, d3⟩ := dip
  simp only [mkIpv4UdpPayload, mkUdpDatagram, be16, Ipv4Addr.bytes,
    List.cons_append, List.nil_append, parse_ipv4_packet, Ipv4Packet.new]
  rw [be16_decode (28 + pl.length) (by omega)]
  rw [if_pos (by omega : 69 % 16 * 4 ≤ 28 + pl.length)]
  rw [show 28 + pl.length - 69 % 16 * 4 = 8 + pl.length from by omega]
  rw [show 69 % 16 * 4 - 20 = 0 from by omega, List.drop_zero]
  rw [List.take_of_length_le (by simp; omega)]
  simp only [UdpPacket.new]
  rw [be16_decode sport hs, be16_decode dport hd]
  simp

/-- C5: classification of well-formed frames.  An IPv4/UDP frame is
`Connected(source mac)` exactly when its source port is 68 and destination
port 67, otherwise `Ignored`; an ARP reply is `Alive(sender hw, sender
proto)`; a gratuitous ARP request (sender protocol address = target
protocol address) is `Alive`; a directed ARP request is `Ignored`; any
other ethertype is `Ignored`. -/
theorem classifier_cases :
    (∀ (dst src : MacAddr) (sip dip : Ipv4Addr) (sport dport : Nat)
      (pl : List Nat), sport < 65536 → dport < 65536 → pl.length ≤ 65507 →
      parse_packet (mkEthernetFrame dst src 2048
          (mkIpv4UdpPayload sip dip sport dport pl)) =
        some (if sport = 68 ∧ dport = 67 then Event.Connected src
          else Event.Ignored)) ∧
    (∀ (dst src sh th : MacAddr) (sp tp : Ipv4Addr),
      parse_packet (mkEthernetFrame dst src 2054 (mkArpPayload 2 sh sp th tp)) =
        some (Event.Alive sh sp)) ∧
    (∀ (dst src sh th : MacAddr) (sp : Ipv4Addr),
      parse_packet (mkEthernetFrame dst src 2054 (mkArpPayload 1 sh sp th sp)) =
        some (Event.Alive sh sp)) ∧
    (∀ (dst src sh th : MacAddr) (sp tp : Ipv4Addr), sp ≠ tp →
      parse_packet (mkEthernetFrame dst src 2054 (mkArpPayload 1 sh sp th tp)) =
        some Event.Ignored) ∧
    (∀ (dst src : MacAddr) (et : Nat) (pl : List Nat),
      et < 65536 → et ≠ 2048 → et ≠ 2054 →
      parse_packet (mkEthernetFrame dst src et pl) = some Event.Ignored) := by
  refine ⟨?_, ?_, ?_, ?_, ?_⟩
  · intro dst src sip dip sport dport pl hs hd hl
    rw [parse_packet_mkEthernetFrame dst src 2048 _ (by omega)]
    rw [if_pos rfl]
    rw [parse_ipv4_mkIpv4Udp 2048 dst src sip dip sport dport pl hs hd hl]
  · intro dst src sh th sp tp
    rw [parse_packet_mkEthernetFrame dst src 2054 _ (by omega)]
    rw [if_neg (by decide), if_pos rfl]
    rw [parse_arp_mkArpPayload 2054 dst src sh th sp tp 2 (by omega)]
    simp
  · intro dst src sh th sp
    rw [parse_packet_mkEthernetFrame dst src 2054 _ (by omega)]
    rw [if_neg (by decide), if_pos rfl]
    rw [parse_arp_mkArpPayload 2054 dst src sh th sp sp 1 (by omega)]
    simp
  · intro dst src sh th sp tp hne
    rw [parse_packet_mkEthernetFrame dst src 2054 _ (by omega)]
    rw [if_neg (by decide), if_pos rfl]
    rw [parse_arp_mkArpPayload 2054 dst src sh th sp tp 1 (by omega)]
    simp [hne]
  · intro dst src et pl h h1 h2
    rw [parse_packet_mkEthernetFrame dst src et pl h]
    rw [if_neg h1, if_neg h2]

/-- Witness for C5 on concrete frames of each shape. -/
theorem classifier_cases_witness :
    parse_packet (mkEthernetFrame macA macB 2048
        (mkIpv4UdpPayload ipA ipB 68 67 [])) = some (Event.Connected macB) ∧
    parse_packet (mkEthernetFrame macA macB 2054
        (mkArpPayload 2 macB ipB macA ipA)) = some (Event.Alive macB ipB) ∧
    parse_packet (mkEthernetFrame macA macB 2054
        (mkArpPayload 1 macB ipB macA ipB)) = some (Event.Alive macB ipB) ∧
    parse_packet (mkEthernetFrame macA macB 2054
        (mkArpPayload 1 macB ipB macA ipA)) = some Event.Ignored ∧
    parse_packet (mkEthernetFrame macA macB 34525 []) = some Event.Ignored := by
  refine ⟨?_, classifier_cases.2.1 macA macB macB macA ipB ipA,
    classifier_cases.2.2.1 macA macB macB macA ipB,
    classifier_cases.2.2.2.1 macA macB macB macA ipB ipA (by decide),
    classifier_cases.2.2.2.2 macA macB 34525 [] (by decide) (by decide) (by decide)⟩
  have h := classifier_cases.1 macA macB ipA ipB 68 67 [] (by decide) (by decide)
    (by decide)
  simpa using h
